import Mathlib

/-!
Verification of the drift-gated retraining core of an MLOps pipeline for
real-estate price prediction.

The development shallowly embeds the Python modules
`apps/airflow/dags/src/drift_detection.py`, `preprocessing.py`,
`data_loader.py`, `model_training.py` and the gate function `check_drift`
of `apps/airflow/dags/mlops_pipeline.py`.

Modelling conventions:
* a pandas cell of a numeric column is `Option ℚ` (`none` = NaN; a value
  `pd.to_numeric` cannot coerce is already `none`, since coercion maps it
  to NaN);
* a pandas cell of a string column is `Option String` (`none` = NaN);
* NaN comparisons (`df[c] > 0` etc.) are `false`, as in pandas, so rows
  with `none` in a filtered column are dropped by that filter;
* a DataFrame is a set of column-presence flags (the code guards almost
  every step with `if col in df.columns`) plus an ordered list of rows;
* the SciPy two-sample KS test is external library code, so `detect_drift`
  takes the test as a function parameter `ks`; likewise `np.log` in the
  PSI calculator is a function parameter;
* Python exceptions are `Except String`.
-/

namespace MLOpsPipeline

/-- One property record: the numeric and string columns touched by
`clean_data` in `preprocessing.py`. -/
@[ext]
structure Row where
  bed : Option ℚ
  bath : Option ℚ
  acre_lot : Option ℚ
  house_size : Option ℚ
  price : Option ℚ
  zip_code : Option String
  city : Option String
  state : Option String
  status : Option String
  street : Option String
  brokered_by : Option String
deriving DecidableEq

/-- The five numeric features used throughout the pipeline. -/
inductive Feature where
  | bed
  | bath
  | acre_lot
  | house_size
  | price
deriving DecidableEq

/-- A tabular batch: which columns exist, plus the rows. -/
@[ext]
structure DataFrame where
  hasBed : Bool
  hasBath : Bool
  hasAcreLot : Bool
  hasHouseSize : Bool
  hasPrice : Bool
  hasZipCode : Bool
  hasCity : Bool
  hasState : Bool
  hasStatus : Bool
  hasStreet : Bool
  hasBrokeredBy : Bool
  rows : List Row
deriving DecidableEq

/-- Numeric cell of a row for a given feature. -/
def Row.getF (r : Row) : Feature → Option ℚ
  | .bed => r.bed
  | .bath => r.bath
  | .acre_lot => r.acre_lot
  | .house_size => r.house_size
  | .price => r.price

/-- Column-presence flag of a numeric feature. -/
def DataFrame.hasF (df : DataFrame) : Feature → Bool
  | .bed => df.hasBed
  | .bath => df.hasBath
  | .acre_lot => df.hasAcreLot
  | .house_size => df.hasHouseSize
  | .price => df.hasPrice

/-- `df[feature].dropna().values`: the non-missing values of a column. -/
def DataFrame.colValues (df : DataFrame) (f : Feature) : List ℚ :=
  df.rows.filterMap (fun r => r.getF f)

/-- First-occurrence, order-preserving deduplication (the semantics of
both `df.drop_duplicates()` and `SELECT DISTINCT`). -/
def dedupKeepFirst {α : Type} [DecidableEq α] (l : List α) : List α :=
  l.foldl (fun acc x => if x ∈ acc then acc else acc ++ [x]) []

/-- A pandas boolean filter on a possibly-missing cell: NaN compares false. -/
def cellTest (c : Option ℚ) (p : ℚ → Bool) : Bool :=
  match c with
  | some v => p v
  | none => false

/-- Insert into an ascending-sorted list. -/
def insertAsc (x : ℚ) : List ℚ → List ℚ
  | [] => [x]
  | y :: ys => if x ≤ y then x :: y :: ys else y :: insertAsc x ys

/-- Ascending sort (used to evaluate pandas quantiles). -/
def sortAsc (xs : List ℚ) : List ℚ :=
  xs.foldr insertAsc []

/-- `Series.quantile(q)` with pandas' default linear interpolation, on the
already-sorted non-missing values.  Callers in `clean_data` only reach this
with a non-empty list; the `getD` default is never consulted there. -/
def quantileSorted (xs : List ℚ) (q : ℚ) : ℚ :=
  let n : ℕ := xs.length
  let h : ℚ := q * ((n : ℚ) - 1)
  let i : ℕ := h.floor.toNat
  let lo := xs.getD i 0
  let hi := xs.getD (i + 1) lo
  lo + (h - (i : ℚ)) * (hi - lo)

/-- `Series.quantile(q)` over a list of non-missing values. -/
def quantile (xs : List ℚ) (q : ℚ) : ℚ :=
  quantileSorted (sortAsc xs) q

/-!  ## Drift detector (`drift_detection.py`, `detect_drift`)  -/

/-- One entry of the `drift_scores` dict built by `detect_drift`. -/
structure FeatureScore where
  statistic : ℚ
  p_value : ℚ
  drift : Bool
deriving DecidableEq

/-- The `details` dict returned by `detect_drift(..., return_details=True)`. -/
structure DriftDetails where
  drift_detected : Bool
  features_with_drift : List Feature
  drift_scores : List (Feature × FeatureScore)
  max_drift_score : ℚ
  reference_samples : ℕ
  current_samples : ℕ
deriving DecidableEq

/-- The fixed evaluation order of `detect_drift`. -/
def numerical_features : List Feature :=
  [.bed, .bath, .acre_lot, .house_size, .price]

/-- Loop state of `detect_drift`. -/
structure DriftAcc where
  drift_detected : Bool
  features_with_drift : List Feature
  drift_scores : List (Feature × FeatureScore)
  max_drift_score : ℚ
deriving DecidableEq

/-- One iteration of the `for feature in numerical_features` loop of
`detect_drift`.  `ks` is `scipy.stats.ks_2samp`, returning
`(statistic, p_value)`. -/
def driftStep (ks : List ℚ → List ℚ → ℚ × ℚ) (reference_df current_df : DataFrame)
    (p_value_threshold : ℚ) (acc : DriftAcc) (feature : Feature) : DriftAcc :=
  if reference_df.hasF feature && current_df.hasF feature then
    let ref_data := reference_df.colValues feature
    let curr_data := current_df.colValues feature
    if ref_data.length < 10 || curr_data.length < 10 then
      acc
    else
      let st := ks ref_data curr_data
      let statistic := st.1
      let p_value := st.2
      let acc1 : DriftAcc :=
        { acc with
          drift_scores :=
            acc.drift_scores ++ [(feature, ⟨statistic, p_value, decide (p_value < p_value_threshold)⟩)] }
      if p_value < p_value_threshold then
        { acc1 with
          drift_detected := true
          features_with_drift := acc1.features_with_drift ++ [feature]
          max_drift_score :=
            if acc1.max_drift_score < statistic then statistic else acc1.max_drift_score }
      else
        acc1
  else
    acc

/-- `detect_drift(reference_df, current_df, p_value_threshold, return_details=True)`. -/
def detect_drift (ks : List ℚ → List ℚ → ℚ × ℚ) (reference_df current_df : DataFrame)
    (p_value_threshold : ℚ) : DriftDetails :=
  let acc := numerical_features.foldl
    (driftStep ks reference_df current_df p_value_threshold)
    ⟨false, [], [], 0⟩
  { drift_detected := acc.drift_detected
    features_with_drift := acc.features_with_drift
    drift_scores := acc.drift_scores
    max_drift_score := acc.max_drift_score
    reference_samples := reference_df.rows.length
    current_samples := current_df.rows.length }

/-- Does `detect_drift` run the KS test for this feature?  (Both columns
present and both sides have at least 10 non-missing values.) -/
def testedFeature (reference_df current_df : DataFrame) (f : Feature) : Bool :=
  (reference_df.hasF f && current_df.hasF f) &&
    !((reference_df.colValues f).length < 10 || (current_df.colValues f).length < 10)

/-- The KS statistic `detect_drift` computes for a feature. -/
def statOf (ks : List ℚ → List ℚ → ℚ × ℚ) (reference_df current_df : DataFrame)
    (f : Feature) : ℚ :=
  (ks (reference_df.colValues f) (current_df.colValues f)).1

/-- The p-value `detect_drift` computes for a feature. -/
def pValueOf (ks : List ℚ → List ℚ → ℚ × ℚ) (reference_df current_df : DataFrame)
    (f : Feature) : ℚ :=
  (ks (reference_df.colValues f) (current_df.colValues f)).2

/-- Is the feature tested and flagged as drifted (`p_value < threshold`)? -/
def driftedFeature (ks : List ℚ → List ℚ → ℚ × ℚ) (reference_df current_df : DataFrame)
    (p_value_threshold : ℚ) (f : Feature) : Bool :=
  testedFeature reference_df current_df f &&
    decide (pValueOf ks reference_df current_df f < p_value_threshold)

/-- The score entry recorded for a tested feature. -/
def scoreOf (ks : List ℚ → List ℚ → ℚ × ℚ) (reference_df current_df : DataFrame)
    (p_value_threshold : ℚ) (f : Feature) : FeatureScore :=
  ⟨statOf ks reference_df current_df f, pValueOf ks reference_df current_df f,
    decide (pValueOf ks reference_df current_df f < p_value_threshold)⟩

/-!  ## PSI calculator (`drift_detection.py`, `calculate_psi`)  -/

/-- `Series.min()` of a non-empty numeric list (on `[]` the code would
yield NaN; `calculate_psi` is only specified on non-empty inputs). -/
def listMin : List ℚ → ℚ
  | [] => 0
  | x :: xs => xs.foldl min x

/-- `Series.max()` of a non-empty numeric list. -/
def listMax : List ℚ → ℚ
  | [] => 0
  | x :: xs => xs.foldl max x

/-- The `i`-th edge of `np.linspace(min_val, max_val, bins + 1)`. -/
def binEdge (min_val max_val : ℚ) (bins i : ℕ) : ℚ :=
  min_val + (max_val - min_val) * (i : ℚ) / (bins : ℚ)

/-- `np.histogram(values, bins=bin_edges)` count of bin `i`: half-open
`[e_i, e_{i+1})`, except the last bin which is closed `[e_{bins-1}, e_bins]`. -/
def binCount (min_val max_val : ℚ) (bins : ℕ) (values : List ℚ) (i : ℕ) : ℕ :=
  values.countP (fun x =>
    decide (binEdge min_val max_val bins i ≤ x) &&
      (if i + 1 = bins then decide (x ≤ binEdge min_val max_val bins (i + 1))
       else decide (x < binEdge min_val max_val bins (i + 1))))

/-- The per-bin `(ref_proportion, curr_proportion)` pairs after the `+ 1`
Laplace smoothing of `calculate_psi`. -/
def psiProportions (reference current : List ℚ) (bins : ℕ) : List (ℚ × ℚ) :=
  let min_val := min (listMin reference) (listMin current)
  let max_val := max (listMax reference) (listMax current)
  (List.range bins).map (fun i =>
    (((binCount min_val max_val bins reference i : ℚ) + 1) / ((reference.length : ℚ) + (bins : ℚ)),
     ((binCount min_val max_val bins current i : ℚ) + 1) / ((current.length : ℚ) + (bins : ℚ))))

/-- `calculate_psi(reference, current, bins)`, with `np.log` abstracted as
the function parameter `log`. -/
def calculate_psi (log : ℚ → ℚ) (reference current : List ℚ) (bins : ℕ) : ℚ :=
  let min_val := min (listMin reference) (listMin current)
  let max_val := max (listMax reference) (listMax current)
  if min_val = max_val then 0
  else
    ((psiProportions reference current bins).map
      (fun pr => (pr.2 - pr.1) * log (pr.2 / pr.1))).sum

/-!  ## Promotion policy (`model_training.py`, `train_and_log_model`)  -/

/-- Minimum R² for promotion (`model_training.py`). -/
def R2_THRESHOLD : ℚ := 35 / 100

/-- Maximum RMSE for promotion (`model_training.py`). -/
def RMSE_THRESHOLD : ℚ := 700000

/-- The promotion outcome logged by `train_and_log_model`. -/
structure PromotionDecision where
  promoted_to_production : Bool
  promotion_reason : String
deriving DecidableEq

/-- The promotion check at the end of `train_and_log_model`:
`if r2 >= R2_THRESHOLD and rmse <= RMSE_THRESHOLD` promotes with reason
`"Metrics met thresholds"`, otherwise records
`f"R2={r2:.4f}, RMSE=${rmse:,.0f}"`.  The numeric formatting functions of
the f-string are abstracted as `fmtR2` and `fmtRMSE`. -/
def promotionCheck (fmtR2 fmtRMSE : ℚ → String) (r2 rmse : ℚ) : PromotionDecision :=
  if R2_THRESHOLD ≤ r2 ∧ rmse ≤ RMSE_THRESHOLD then
    ⟨true, "Metrics met thresholds"⟩
  else
    ⟨false, "R2=" ++ fmtR2 r2 ++ ", RMSE=$" ++ fmtRMSE rmse⟩

/-!  ## Reference selector (`data_loader.py`, `get_reference_data`)  -/

/-- One row of the `raw_data` table: the metadata columns added by
`save_to_postgres` plus the record payload. -/
structure StoredRow where
  batch_id : String
  ingestion_timestamp : ℤ
  payload : Row
deriving DecidableEq

/-- The distinct `batch_id`s present in the store. -/
def batchIds (store : List StoredRow) : List String :=
  dedupKeepFirst (store.map (fun r => r.batch_id))

/-- `MIN(ingestion_timestamp)` over the rows of one batch (the
`first_timestamp` of the grouped query; batches looked up are non-empty). -/
def firstTimestamp (store : List StoredRow) (b : String) : ℤ :=
  match (store.filter (fun r => r.batch_id = b)).map (fun r => r.ingestion_timestamp) with
  | [] => 0
  | t :: ts => ts.foldl min t

/-- Descending order on `(batch_id, first_timestamp)` pairs, as produced by
`ORDER BY first_timestamp DESC`. -/
def tsGE (a b : String × ℤ) : Prop := b.2 ≤ a.2

instance : DecidableRel tsGE := fun a b => inferInstanceAs (Decidable (b.2 ≤ a.2))

instance : IsTotal (String × ℤ) tsGE := ⟨fun a b => le_total b.2 a.2⟩

instance : IsTrans (String × ℤ) tsGE := ⟨fun _ _ _ h1 h2 => le_trans h2 h1⟩

/-- The grouped query of `get_reference_data`:
`SELECT DISTINCT batch_id, MIN(ingestion_timestamp) GROUP BY batch_id
ORDER BY first_timestamp DESC LIMIT 2`. -/
def batchesQuery (store : List StoredRow) : List (String × ℤ) :=
  (List.insertionSort tsGE ((batchIds store).map (fun b => (b, firstTimestamp store b)))).take 2

/-- `load_from_postgres('raw_data', batch_id=b)`: the rows of one batch. -/
def loadBatch (store : List StoredRow) (b : String) : List StoredRow :=
  store.filter (fun r => r.batch_id = b)

/-- `get_reference_data()`: with two or more batches return the rows of the
second-most-recent batch, with exactly one return that batch, with none
return `None`. -/
def get_reference_data (store : List StoredRow) : Option (List StoredRow) :=
  match batchesQuery store with
  | _ :: b1 :: _ => some (loadBatch store b1.1)
  | [b0] => some (loadBatch store b0.1)
  | [] => none

/-!  ## Retraining gate (`mlops_pipeline.py`, `check_drift`)  -/

/-- One audit entry written by `log_drift_result` (`data_loader.py`). -/
structure DriftLogEntry where
  drift_detected : Bool
  drift_score : ℚ
  features_with_drift : List Feature
  reference_batch_id : Option String
  current_batch_id : Option String
  action_taken : String
deriving DecidableEq

/-- The collaborators `check_drift` calls, with their possible outcomes.
`load_from_postgres` and `get_reference_data` catch their own exceptions
and return `None`, so they are `Option`-valued; `load_raw_data` (S3),
`clean_data` and `detect_drift` can raise into the gate's `try`, so they
are `Except`-valued.  `ref_batch_id` is the value of
`reference_df['batch_id'].iloc[0] if 'batch_id' in ... else 'unknown'`. -/
structure GateEnv where
  current_batch_id : Option String
  loadPg : Option DataFrame
  loadS3 : Except String (Option DataFrame)
  reference : Option DataFrame
  clean : DataFrame → Except String DataFrame
  detect : DataFrame → DataFrame → Except String DriftDetails
  ref_batch_id : String

/-- The degenerate first-run audit entry recorded by `check_drift` when no
reference exists. -/
def firstRunEntry (current_batch_id : Option String) : DriftLogEntry :=
  ⟨false, 0, [], none, current_batch_id, "train_first_run"⟩

/-- S3 fallback inside `check_drift`: used when the PostgreSQL load yields
`None` or an empty frame; raises if S3 also yields nothing. -/
def loadCurrentFallback (env : GateEnv) : Except String DataFrame := do
  let s3 ← env.loadS3
  match s3 with
  | some df =>
      if df.rows.isEmpty then
        Except.error "Could not load current data from any source"
      else
        pure df
  | none => Except.error "Could not load current data from any source"

/-- Loading the current batch in `check_drift`: PostgreSQL first, then the
S3 fallback when that yields `None` or an empty frame. -/
def loadCurrentStep (env : GateEnv) : Except String DataFrame :=
  match env.loadPg with
  | some df => if df.rows.isEmpty then loadCurrentFallback env else pure df
  | none => loadCurrentFallback env

/-- The remainder of `check_drift`'s `try` block once the current batch is
loaded: first-run handling, cleaning, detection, and the branch decision
with its `log_drift_result` call. -/
def gateEval (env : GateEnv) (current_df : DataFrame) :
    Except String (String × List DriftLogEntry) :=
  match env.reference with
  | none => pure ("train_model", [firstRunEntry env.current_batch_id])
  | some reference_df =>
    if reference_df.rows.isEmpty then
      pure ("train_model", [firstRunEntry env.current_batch_id])
    else do
      let current_clean ← env.clean current_df
      let reference_clean ← env.clean reference_df
      let details ← env.detect reference_clean current_clean
      if details.drift_detected then
        pure ("train_model",
          [⟨true, details.max_drift_score, details.features_with_drift,
            some env.ref_batch_id, env.current_batch_id, "retrain"⟩])
      else
        pure ("skip_training",
          [⟨false, details.max_drift_score, [],
            some env.ref_batch_id, env.current_batch_id, "skip"⟩])

/-- The body of `check_drift`'s `try` block: returns the branch task id and
the audit entries written.  Every `log_drift_result` call in the source is
immediately followed by `return`, so an exception can never be raised after
an audit entry has been written; hence the error carries no entries. -/
def check_drift_body (env : GateEnv) : Except String (String × List DriftLogEntry) :=
  (loadCurrentStep env).bind (gateEval env)

/-- `check_drift`: the `try` body with the catch-all `except` that returns
`'train_model'` on any exception. -/
def check_drift (env : GateEnv) : String × List DriftLogEntry :=
  match check_drift_body env with
  | .ok r => r
  | .error _ => ("train_model", [])

/-!  ## Feature cleaner (`preprocessing.py`, `clean_data` / `validate_data`)  -/

/-- Exact-duplicate removal keeping first occurrences
(`df.drop_duplicates()`). -/
def dropDupes (rows : List Row) : List Row :=
  dedupKeepFirst rows

/-- `astype(str).replace('nan', '')` on one string cell: NaN prints as
`'nan'` and is then replaced by the empty string. -/
def toStrCell : Option String → Option String
  | none => some ""
  | some s => if s = "nan" then some "" else some s

/-- `replace('', 'Unknown')` then `replace('nan', 'Unknown')` on the
`state` column. -/
def fixState : Option String → Option String
  | none => none
  | some s => if s = "" then some "Unknown" else if s = "nan" then some "Unknown" else some s

/-- `replace('', 'for_sale')` then `replace('nan', 'for_sale')` on the
`status` column. -/
def fixStatus : Option String → Option String
  | none => none
  | some s => if s = "" then some "for_sale" else if s = "nan" then some "for_sale" else some s

/-- Step 2 of `clean_data` on one row: `pd.to_numeric(errors='coerce')` on
the numeric columns (identity here, cells being already parsed with
non-coercible values as `none`) and the string conversion on each string
column present. -/
def convRow (df : DataFrame) (r : Row) : Row :=
  { r with
    zip_code := if df.hasZipCode then toStrCell r.zip_code else r.zip_code
    city := if df.hasCity then toStrCell r.city else r.city
    state := if df.hasState then toStrCell r.state else r.state
    status := if df.hasStatus then toStrCell r.status else r.status
    street := if df.hasStreet then toStrCell r.street else r.street
    brokered_by := if df.hasBrokeredBy then toStrCell r.brokered_by else r.brokered_by }

/-- `df.dropna(subset=[col])` for a numeric column. -/
def dropnaCol (f : Feature) (rows : List Row) : List Row :=
  rows.filter (fun r => (r.getF f).isSome)

/-- `df['acre_lot'].fillna(df['acre_lot'].median())`: the median skips
missing values; when every value is missing the median is NaN and the fill
leaves the column unchanged. -/
def fillAcre (rows : List Row) : List Row :=
  match rows.filterMap (fun r => r.acre_lot) with
  | [] => rows
  | v :: vs =>
    let m := quantile (v :: vs) (1 / 2)
    rows.map (fun r => { r with acre_lot := some (r.acre_lot.getD m) })

/-- Step 4 of `clean_data` for one column: when more than 100 rows remain,
keep rows inside the [1st, 99th] percentile of the column. -/
def outlierStep (f : Feature) (rows : List Row) : List Row :=
  if 100 < rows.length then
    let vals := rows.filterMap (fun r => r.getF f)
    let p1 := quantile vals (1 / 100)
    let p99 := quantile vals (99 / 100)
    rows.filter (fun r => cellTest (r.getF f) (fun v => decide (p1 ≤ v) && decide (v ≤ p99)))
  else
    rows

/-- The predicate of `df[df[col] > 0]`. -/
def posP (f : Feature) (r : Row) : Bool :=
  cellTest (r.getF f) (fun v => decide (0 < v))

/-- The predicate of `df[(df[col] >= lo) & (df[col] <= hi)]`. -/
def rangeP (f : Feature) (lo hi : ℚ) (r : Row) : Bool :=
  cellTest (r.getF f) (fun v => decide (lo ≤ v) && decide (v ≤ hi))

/-- `df[df[col] > 0]`. -/
def filterPos (f : Feature) (rows : List Row) : List Row :=
  rows.filter (posP f)

/-- `df[(df[col] >= lo) & (df[col] <= hi)]`. -/
def filterRange (f : Feature) (lo hi : ℚ) (rows : List Row) : List Row :=
  rows.filter (rangeP f lo hi)

/-- A cleaning statement guarded by `if col in df.columns`. -/
def guarded (b : Bool) (step : List Row → List Row) (rows : List Row) : List Row :=
  if b then step rows else rows

/-- Step 3 of `clean_data`: drop rows missing a critical column (in source
order `price, bed, bath, house_size`), fill `acre_lot` with the column
median, fill the `state` and `status` sentinels. -/
def step3 (df : DataFrame) (rows : List Row) : List Row :=
  guarded df.hasStatus (List.map (fun r => { r with status := fixStatus r.status }))
    (guarded df.hasState (List.map (fun r => { r with state := fixState r.state }))
      (guarded df.hasAcreLot fillAcre
        (guarded df.hasHouseSize (dropnaCol .house_size)
          (guarded df.hasBath (dropnaCol .bath)
            (guarded df.hasBed (dropnaCol .bed)
              (guarded df.hasPrice (dropnaCol .price) rows))))))

/-- Step 4 of `clean_data`: percentile outlier removal for `price` then
`house_size`. -/
def step4 (df : DataFrame) (rows : List Row) : List Row :=
  guarded df.hasHouseSize (outlierStep .house_size)
    (guarded df.hasPrice (outlierStep .price) rows)

/-- Step 5 of `clean_data`: positivity for every numeric column present
(in source order `price, bed, bath, acre_lot, house_size`), then the hard
domain ranges. -/
def step5 (df : DataFrame) (rows : List Row) : List Row :=
  guarded df.hasHouseSize (filterRange .house_size 100 50000)
    (guarded df.hasAcreLot (filterRange .acre_lot (1 / 1000) 1000)
      (guarded df.hasBath (filterRange .bath (1 / 2) 15)
        (guarded df.hasBed (filterRange .bed 1 20)
          (guarded df.hasHouseSize (filterPos .house_size)
            (guarded df.hasAcreLot (filterPos .acre_lot)
              (guarded df.hasBath (filterPos .bath)
                (guarded df.hasBed (filterPos .bed)
                  (guarded df.hasPrice (filterPos .price) rows))))))))

/-- `clean_data(df)`: deduplicate, convert types, handle missing values,
remove outliers, validate ranges.  Column presence is unchanged. -/
def clean_data (df : DataFrame) : DataFrame :=
  { df with
    rows := step5 df (step4 df (step3 df ((dropDupes df.rows).map (convRow df)))) }

/-- The default `required_cols` of `validate_data`. -/
def requiredCols : List Feature :=
  [.bed, .bath, .acre_lot, .house_size, .price]

/-- `validate_data(df)` with the default required columns: raises on a
missing required column, an empty frame, or an all-null required column. -/
def validate_data (df : DataFrame) : Except String Unit :=
  if (requiredCols.filter (fun f => !df.hasF f)) ≠ [] then
    Except.error "Missing required columns"
  else if df.rows.length = 0 then
    Except.error "DataFrame is empty"
  else
    match requiredCols.find? (fun f => df.rows.all (fun r => (r.getF f).isNone)) with
    | some _ => Except.error "Column is all null"
    | none => Except.ok ()

/-!  ## Concrete inputs used by witnesses  -/

/-- A trivial stand-in for `scipy.stats.ks_2samp` used by witnesses. -/
def ks0 : List ℚ → List ℚ → ℚ × ℚ := fun _ _ => (1 / 2, 1 / 100)

/-- An empty batch with every column present. -/
def emptyDf : DataFrame :=
  ⟨true, true, true, true, true, true, true, true, true, true, true, []⟩

/-- A fully-populated example record. -/
def row0 : Row :=
  ⟨some 3, some 2, some 1, some 1500, some 100000,
   some "1", some "c", some "CA", some "for_sale", some "s", some "b"⟩

/-- A store holding two one-row batches, batch `"b"` ingested after `"a"`. -/
def store2 : List StoredRow :=
  [⟨"a", 1, row0⟩, ⟨"b", 2, row0⟩]

/-- A gate environment in which loading the current batch raises (the
PostgreSQL load yields `None` and the S3 fallback raises). -/
def env0 : GateEnv :=
  ⟨some "batch1", none, Except.error "db down", none,
   fun df => Except.ok df,
   fun a b => Except.ok (detect_drift ks0 a b (1 / 20)),
   "unknown"⟩

/-- A one-row batch with every column present. -/
def dfOneRow : DataFrame :=
  ⟨true, true, true, true, true, true, true, true, true, true, true, [row0]⟩

/-- A first-run gate environment: loadable current batch, no reference. -/
def envFirstRun : GateEnv :=
  ⟨some "batch1", some dfOneRow, Except.ok none, none,
   fun df => Except.ok df,
   fun a b => Except.ok (detect_drift ks0 a b (1 / 20)),
   "unknown"⟩

/-- A row with the given price and fixed in-range remaining fields. -/
def mkRow (p : ℚ) : Row :=
  ⟨some 2, some 1, some 1, some 1000, some p,
   some "z", some "c", some "CA", some "for_sale", some "s", some "b"⟩

/-- A batch of 110 rows with distinct prices `1, …, 110` and every other
field constant and in range. -/
def df110 : DataFrame :=
  ⟨true, true, true, true, true, true, true, true, true, true, true,
   (List.range 110).map (fun i => mkRow ((i : ℚ) + 1))⟩

/-- The step-5 state of a row: for every numeric column present, the cell
passes the positivity filter and (for the four bounded columns) the hard
domain-range filter. -/
def Step5Ok (df : DataFrame) (r : Row) : Prop :=
  (df.hasPrice = true → posP .price r = true) ∧
  (df.hasBed = true → posP .bed r = true ∧ rangeP .bed 1 20 r = true) ∧
  (df.hasBath = true → posP .bath r = true ∧ rangeP .bath (1 / 2) 15 r = true) ∧
  (df.hasAcreLot = true → posP .acre_lot r = true ∧ rangeP .acre_lot (1 / 1000) 1000 r = true) ∧
  (df.hasHouseSize = true → posP .house_size r = true ∧ rangeP .house_size 100 50000 r = true)

/-- A string cell after type conversion: present and never `"nan"`. -/
def cellStr (c : Option String) : Prop :=
  ∃ s, c = some s ∧ s ≠ "nan"

/-- A string cell after sentinel filling: present, never `"nan"`, never
empty. -/
def cellSentinel (c : Option String) : Prop :=
  ∃ s, c = some s ∧ s ≠ "nan" ∧ s ≠ ""

/-- The string cells of a row right after the type-conversion step. -/
def ConvOk (df : DataFrame) (r : Row) : Prop :=
  (df.hasZipCode = true → cellStr r.zip_code) ∧
  (df.hasCity = true → cellStr r.city) ∧
  (df.hasStreet = true → cellStr r.street) ∧
  (df.hasBrokeredBy = true → cellStr r.brokered_by) ∧
  (df.hasState = true → cellStr r.state) ∧
  (df.hasStatus = true → cellStr r.status)

/-- The string cells of a fully cleaned row: conversion invariants plus
the `state` / `status` sentinels. -/
def StrOkRow (df : DataFrame) (r : Row) : Prop :=
  (df.hasZipCode = true → cellStr r.zip_code) ∧
  (df.hasCity = true → cellStr r.city) ∧
  (df.hasStreet = true → cellStr r.street) ∧
  (df.hasBrokeredBy = true → cellStr r.brokered_by) ∧
  (df.hasState = true → cellSentinel r.state) ∧
  (df.hasStatus = true → cellSentinel r.status)

end MLOpsPipeline

namespace MLOpsPipeline

/-!  ## Drift detector lemmas  -/

theorem driftStep_of_tested_false {ks : List ℚ → List ℚ → ℚ × ℚ}
    {reference_df current_df : DataFrame} {thr : ℚ} {acc : DriftAcc} {f : Feature}
    (h : testedFeature reference_df current_df f = false) :
    driftStep ks reference_df current_df thr acc f = acc := by
  unfold driftStep
  by_cases h1 : (reference_df.hasF f && current_df.hasF f) = true
  · have h2 : (decide ((reference_df.colValues f).length < 10) ||
        decide ((current_df.colValues f).length < 10)) = true := by
      unfold testedFeature at h
      rw [h1] at h
      cases hC : (decide ((reference_df.colValues f).length < 10) ||
          decide ((current_df.colValues f).length < 10))
      · rw [hC] at h
        simp at h
      · rfl
    rw [if_pos h1, if_pos h2]
  · rw [if_neg h1]

theorem driftStep_of_stable {ks : List ℚ → List ℚ → ℚ × ℚ}
    {reference_df current_df : DataFrame} {thr : ℚ} {acc : DriftAcc} {f : Feature}
    (h : testedFeature reference_df current_df f = true)
    (hp : ¬ pValueOf ks reference_df current_df f < thr) :
    driftStep ks reference_df current_df thr acc f =
      { acc with drift_scores := acc.drift_scores ++
          [(f, scoreOf ks reference_df current_df thr f)] } := by
  unfold testedFeature at h
  rw [Bool.and_eq_true] at h
  obtain ⟨h1, h2⟩ := h
  have hp' : ¬ (ks (reference_df.colValues f) (current_df.colValues f)).2 < thr := hp
  unfold driftStep
  rw [if_pos h1, if_neg (by simpa using h2)]
  dsimp only
  rw [if_neg hp']
  rfl

theorem driftStep_of_drifted {ks : List ℚ → List ℚ → ℚ × ℚ}
    {reference_df current_df : DataFrame} {thr : ℚ} {acc : DriftAcc} {f : Feature}
    (h : testedFeature reference_df current_df f = true)
    (hp : pValueOf ks reference_df current_df f < thr) :
    driftStep ks reference_df current_df thr acc f =
      { drift_detected := true
        features_with_drift := acc.features_with_drift ++ [f]
        drift_scores := acc.drift_scores ++ [(f, scoreOf ks reference_df current_df thr f)]
        max_drift_score :=
          if acc.max_drift_score < statOf ks reference_df current_df f then
            statOf ks reference_df current_df f
          else acc.max_drift_score } := by
  unfold testedFeature at h
  rw [Bool.and_eq_true] at h
  obtain ⟨h1, h2⟩ := h
  have hp' : (ks (reference_df.colValues f) (current_df.colValues f)).2 < thr := hp
  unfold driftStep
  rw [if_pos h1, if_neg (by simpa using h2)]
  dsimp only
  rw [if_pos hp']
  rfl

theorem driftedFeature_eq_false_of_not_tested {ks : List ℚ → List ℚ → ℚ × ℚ}
    {reference_df current_df : DataFrame} {thr : ℚ} {f : Feature}
    (h : testedFeature reference_df current_df f = false) :
    driftedFeature ks reference_df current_df thr f = false := by
  unfold driftedFeature
  simp [h]

/-- The running maximum used by `detect_drift`. -/
def maxStep (g : Feature → ℚ) (m : ℚ) (f : Feature) : ℚ :=
  if m < g f then g f else m

theorem maxFold_ge_init (g : Feature → ℚ) :
    ∀ (l : List Feature) (m : ℚ), m ≤ l.foldl (maxStep g) m := by
  intro l
  induction l with
  | nil => intro m; simp
  | cons f fs ih =>
    intro m
    refine le_trans ?_ (ih (maxStep g m f))
    unfold maxStep
    split <;> simp [le_of_lt, *]

theorem maxFold_ge_mem (g : Feature → ℚ) :
    ∀ (l : List Feature) (m : ℚ), ∀ f ∈ l, g f ≤ l.foldl (maxStep g) m := by
  intro l
  induction l with
  | nil => intro m f hf; simp at hf
  | cons x xs ih =>
    intro m f hf
    rcases List.mem_cons.mp hf with rfl | hf
    · refine le_trans ?_ (maxFold_ge_init g xs (maxStep g m f))
      unfold maxStep
      split <;> simp [*, le_of_not_lt]
    · exact ih (maxStep g m x) f hf

theorem maxFold_mem_or_init (g : Feature → ℚ) :
    ∀ (l : List Feature) (m : ℚ),
      l.foldl (maxStep g) m = m ∨ l.foldl (maxStep g) m ∈ l.map g := by
  intro l
  induction l with
  | nil => intro m; left; rfl
  | cons x xs ih =>
    intro m
    rw [List.foldl_cons]
    rcases ih (maxStep g m x) with h | h
    · rw [h]
      by_cases hx : m < g x
      · right
        simp only [maxStep, if_pos hx]
        simp
      · left
        simp only [maxStep, if_neg hx]
    · right
      simp only [List.map_cons]
      exact List.mem_cons_of_mem _ h

/-- Closed form of the `detect_drift` loop: the features with drift are the
drifted features in list order, the score entries are the tested features
in list order, and the running maximum folds over the drifted features. -/
theorem drift_foldl_spec (ks : List ℚ → List ℚ → ℚ × ℚ)
    (reference_df current_df : DataFrame) (thr : ℚ) :
    ∀ (fs : List Feature) (acc : DriftAcc),
      fs.foldl (driftStep ks reference_df current_df thr) acc =
        { drift_detected :=
            acc.drift_detected ||
              !(fs.filter (driftedFeature ks reference_df current_df thr)).isEmpty
          features_with_drift :=
            acc.features_with_drift ++ fs.filter (driftedFeature ks reference_df current_df thr)
          drift_scores :=
            acc.drift_scores ++ (fs.filter (testedFeature reference_df current_df)).map
              (fun f => (f, scoreOf ks reference_df current_df thr f))
          max_drift_score :=
            (fs.filter (driftedFeature ks reference_df current_df thr)).foldl
              (maxStep (statOf ks reference_df current_df)) acc.max_drift_score } := by
  intro fs
  induction fs with
  | nil => intro acc; simp
  | cons f fs ih =>
    intro acc
    rw [List.foldl_cons]
    by_cases ht : testedFeature reference_df current_df f = true
    · by_cases hp : pValueOf ks reference_df current_df f < thr
      · have hd : driftedFeature ks reference_df current_df thr f = true := by
          unfold driftedFeature
          simp [ht, hp]
        rw [driftStep_of_drifted ht hp, ih]
        simp only [List.filter_cons, ht, hd, if_pos]
        simp [maxStep, List.append_assoc]
      · have hd : driftedFeature ks reference_df current_df thr f = false := by
          unfold driftedFeature
          simp [hp]
        rw [driftStep_of_stable ht hp, ih]
        simp only [List.filter_cons, ht, hd]
        simp [List.append_assoc]
    · have ht' : testedFeature reference_df current_df f = false := by
        simpa using ht
      have hd : driftedFeature ks reference_df current_df thr f = false :=
        driftedFeature_eq_false_of_not_tested ht'
      rw [driftStep_of_tested_false ht', ih]
      simp only [List.filter_cons, ht', hd]
      simp

/-- The `detect_drift` result in closed form. -/
theorem detect_drift_spec (ks : List ℚ → List ℚ → ℚ × ℚ)
    (reference_df current_df : DataFrame) (thr : ℚ) :
    detect_drift ks reference_df current_df thr =
      { drift_detected :=
          !(numerical_features.filter (driftedFeature ks reference_df current_df thr)).isEmpty
        features_with_drift :=
          numerical_features.filter (driftedFeature ks reference_df current_df thr)
        drift_scores :=
          (numerical_features.filter (testedFeature reference_df current_df)).map
            (fun f => (f, scoreOf ks reference_df current_df thr f))
        max_drift_score :=
          (numerical_features.filter (driftedFeature ks reference_df current_df thr)).foldl
            (maxStep (statOf ks reference_df current_df)) 0
        reference_samples := reference_df.rows.length
        current_samples := current_df.rows.length } := by
  unfold detect_drift
  rw [drift_foldl_spec]
  simp

theorem mem_numerical_features (f : Feature) : f ∈ numerical_features := by
  cases f <;> simp [numerical_features]

theorem testedFeature_of_drifted {ks : List ℚ → List ℚ → ℚ × ℚ}
    {reference_df current_df : DataFrame} {thr : ℚ} {f : Feature}
    (h : driftedFeature ks reference_df current_df thr f = true) :
    testedFeature reference_df current_df f = true := by
  unfold driftedFeature at h
  rw [Bool.and_eq_true] at h
  exact h.1

theorem map_fst_pairs {α β : Type} (h : α → β) (l : List α) :
    (l.map (fun a => (a, h a))).map Prod.fst = l := by
  induction l with
  | nil => rfl
  | cons x xs ih => simp [ih]

/-- Claim C3: every `DriftVerdict` returned by `detect_drift` satisfies the
structural invariant: `drift_detected` holds iff `features_with_drift` is
non-empty; `features_with_drift` is the sublist of the fixed evaluation
order `bed, bath, acre_lot, house_size, price` consisting of the drifted
features; and `max_drift_score` is `0` when nothing drifted and otherwise
the maximum KS statistic among the drifted features (the KS statistic
being non-negative). -/
theorem detect_drift_invariants (ks : List ℚ → List ℚ → ℚ × ℚ)
    (reference_df current_df : DataFrame) (thr : ℚ)
    (hks : ∀ a b : List ℚ, 0 ≤ (ks a b).1) :
    ((detect_drift ks reference_df current_df thr).drift_detected = true ↔
      (detect_drift ks reference_df current_df thr).features_with_drift ≠ []) ∧
    (detect_drift ks reference_df current_df thr).features_with_drift =
      numerical_features.filter (driftedFeature ks reference_df current_df thr) ∧
    ((detect_drift ks reference_df current_df thr).features_with_drift = [] →
      (detect_drift ks reference_df current_df thr).max_drift_score = 0) ∧
    ((detect_drift ks reference_df current_df thr).features_with_drift ≠ [] →
      (detect_drift ks reference_df current_df thr).max_drift_score ∈
        (detect_drift ks reference_df current_df thr).features_with_drift.map
          (statOf ks reference_df current_df) ∧
      ∀ f ∈ (detect_drift ks reference_df current_df thr).features_with_drift,
        statOf ks reference_df current_df f ≤
          (detect_drift ks reference_df current_df thr).max_drift_score) := by
  rw [detect_drift_spec]
  refine ⟨?_, rfl, ?_, ?_⟩
  · simp
  · intro h
    have hL : numerical_features.filter (driftedFeature ks reference_df current_df thr) = [] := by
      simpa using h
    simp [hL]
  · intro h
    constructor
    · rcases maxFold_mem_or_init (statOf ks reference_df current_df)
        (numerical_features.filter (driftedFeature ks reference_df current_df thr)) 0 with
        h0 | hmem
      · obtain ⟨f0, hf0⟩ := List.exists_mem_of_ne_nil _ h
        have hle : statOf ks reference_df current_df f0 ≤ 0 := by
          rw [← h0]
          exact maxFold_ge_mem _ _ _ _ hf0
        have hge : 0 ≤ statOf ks reference_df current_df f0 := hks _ _
        have hz : statOf ks reference_df current_df f0 = 0 := le_antisymm hle hge
        rw [h0]
        exact List.mem_map.mpr ⟨f0, hf0, hz⟩
      · exact hmem
    · intro f hf
      exact maxFold_ge_mem _ _ _ f hf

/-- Witness for C3 at a concrete input. -/
theorem detect_drift_invariants_witness :
    (∀ a b : List ℚ, 0 ≤ (ks0 a b).1) ∧
    (detect_drift ks0 emptyDf emptyDf (1 / 20)).features_with_drift =
      numerical_features.filter (driftedFeature ks0 emptyDf emptyDf (1 / 20)) :=
  ⟨fun a b => by norm_num [ks0],
   (detect_drift_invariants ks0 emptyDf emptyDf (1 / 20) (fun a b => by norm_num [ks0])).2.1⟩

/-- Claim C5: a feature contributes a score entry to the verdict exactly
when both columns are present and both sides have at least 10 non-missing
values; an under-sampled feature contributes nothing and is never flagged
as drifted. -/
theorem detect_drift_sample_guard (ks : List ℚ → List ℚ → ℚ × ℚ)
    (reference_df current_df : DataFrame) (thr : ℚ) (f : Feature) :
    (f ∈ (detect_drift ks reference_df current_df thr).drift_scores.map Prod.fst ↔
      reference_df.hasF f = true ∧ current_df.hasF f = true ∧
        10 ≤ (reference_df.colValues f).length ∧ 10 ≤ (current_df.colValues f).length) ∧
    ((reference_df.colValues f).length < 10 ∨ (current_df.colValues f).length < 10 →
      f ∉ (detect_drift ks reference_df current_df thr).drift_scores.map Prod.fst ∧
      f ∉ (detect_drift ks reference_df current_df thr).features_with_drift) := by
  rw [detect_drift_spec]
  have hkeys :
      ((numerical_features.filter (testedFeature reference_df current_df)).map
        (fun g => (g, scoreOf ks reference_df current_df thr g))).map Prod.fst =
        numerical_features.filter (testedFeature reference_df current_df) :=
    map_fst_pairs _ _
  constructor
  · simp only [hkeys]
    rw [List.mem_filter]
    unfold testedFeature
    simp [mem_numerical_features, not_lt, and_assoc]
  · intro h
    have ht : testedFeature reference_df current_df f = false := by
      unfold testedFeature
      rcases h with h | h <;> simp [h]
    constructor
    · simp only [hkeys]
      rw [List.mem_filter]
      simp [ht]
    · rw [List.mem_filter]
      simp [driftedFeature_eq_false_of_not_tested ht]

/-- Witness for C5 at a concrete input (empty batches: 0 < 10 values). -/
theorem detect_drift_sample_guard_witness :
    ((emptyDf.colValues Feature.price).length < 10 ∨
      (emptyDf.colValues Feature.price).length < 10) ∧
    Feature.price ∉ (detect_drift ks0 emptyDf emptyDf (1 / 20)).features_with_drift :=
  ⟨Or.inl (by norm_num [emptyDf, DataFrame.colValues]),
   ((detect_drift_sample_guard ks0 emptyDf emptyDf (1 / 20) Feature.price).2
     (Or.inl (by norm_num [emptyDf, DataFrame.colValues]))).2⟩

/-- Claim C9: `detect_drift` is total (the embedding returns a verdict for
every pair of batches, including empty ones), and a feature whose column is
absent on either side or whose evidence is under-sampled contributes no
score entry and is never counted as drifted. -/
theorem detect_drift_degenerate (ks : List ℚ → List ℚ → ℚ × ℚ)
    (reference_df current_df : DataFrame) (thr : ℚ) (f : Feature)
    (h : ¬(reference_df.hasF f = true ∧ current_df.hasF f = true) ∨
      (reference_df.colValues f).length < 10 ∨ (current_df.colValues f).length < 10) :
    f ∉ (detect_drift ks reference_df current_df thr).drift_scores.map Prod.fst ∧
    f ∉ (detect_drift ks reference_df current_df thr).features_with_drift := by
  have ht : testedFeature reference_df current_df f = false := by
    unfold testedFeature
    rcases h with h | h | h
    · have hAB : (reference_df.hasF f && current_df.hasF f) = false := by
        cases hA : reference_df.hasF f <;> cases hB : current_df.hasF f <;>
          simp [hA, hB] at h ⊢
      simp [hAB]
    · simp [h]
    · simp [h]
  rw [detect_drift_spec]
  have hkeys :
      ((numerical_features.filter (testedFeature reference_df current_df)).map
        (fun g => (g, scoreOf ks reference_df current_df thr g))).map Prod.fst =
        numerical_features.filter (testedFeature reference_df current_df) :=
    map_fst_pairs _ _
  constructor
  · simp only [hkeys]
    rw [List.mem_filter]
    simp [ht]
  · rw [List.mem_filter]
    simp [driftedFeature_eq_false_of_not_tested ht]

/-- Witness for C9: an empty batch on both sides. -/
theorem detect_drift_degenerate_witness :
    ((emptyDf.colValues Feature.bed).length < 10 ∨
        (emptyDf.colValues Feature.bed).length < 10) ∧
    Feature.bed ∉ (detect_drift ks0 emptyDf emptyDf (1 / 20)).features_with_drift :=
  ⟨Or.inl (by norm_num [emptyDf, DataFrame.colValues]),
   (detect_drift_degenerate ks0 emptyDf emptyDf (1 / 20) Feature.bed
     (Or.inr (Or.inl (by norm_num [emptyDf, DataFrame.colValues])))).2⟩

/-!  ## PSI theorems  -/

/-- Claim C10: on non-empty inputs `calculate_psi` is total: when the
combined minimum equals the combined maximum it returns `0` for every
logarithm function (so the binning is never consulted), and otherwise the
Laplace smoothing makes every bin proportion strictly positive, so every
division and every logarithm argument in the PSI sum is well-defined. -/
theorem calculate_psi_total (reference current : List ℚ) (bins : ℕ)
    (href : reference ≠ []) (hcur : current ≠ []) (hbins : 0 < bins) :
    (min (listMin reference) (listMin current) = max (listMax reference) (listMax current) →
      ∀ log : ℚ → ℚ, calculate_psi log reference current bins = 0) ∧
    (∀ p ∈ psiProportions reference current bins, 0 < p.1 ∧ 0 < p.2 ∧ 0 < p.2 / p.1) := by
  constructor
  · intro h log
    unfold calculate_psi
    rw [if_pos h]
  · intro p hp
    unfold psiProportions at hp
    obtain ⟨i, _, hpi⟩ := List.mem_map.mp hp
    have hbinsQ : (0 : ℚ) < (bins : ℚ) := by exact_mod_cast hbins
    have h1 : 0 < p.1 := by
      rw [← hpi]
      refine div_pos ?_ ?_
      · positivity
      · exact add_pos_of_nonneg_of_pos (Nat.cast_nonneg _) hbinsQ
    have h2 : 0 < p.2 := by
      rw [← hpi]
      refine div_pos ?_ ?_
      · positivity
      · exact add_pos_of_nonneg_of_pos (Nat.cast_nonneg _) hbinsQ
    exact ⟨h1, h2, div_pos h2 h1⟩

/-- Witness for C10: two small concrete series with the default 10 bins. -/
theorem calculate_psi_total_witness :
    (([1, 2] : List ℚ) ≠ [] ∧ ([3] : List ℚ) ≠ [] ∧ 0 < 10) ∧
    (∀ p ∈ psiProportions [1, 2] [3] 10, 0 < p.1 ∧ 0 < p.2 ∧ 0 < p.2 / p.1) :=
  ⟨⟨by decide, by decide, by decide⟩,
   (calculate_psi_total [1, 2] [3] 10 (by decide) (by decide) (by decide)).2⟩

/-!  ## Promotion-policy theorems  -/

/-- Claim C6: a candidate is promoted iff both `R² ≥ 0.35` and
`RMSE ≤ 700000` hold; on promotion the recorded reason is exactly
`"Metrics met thresholds"`, and on failure the candidate is not promoted
and the recorded reason carries both metrics (naming the `R2` and `RMSE`
values, hence every failed condition, not just the first). -/
theorem promotion_policy (fmtR2 fmtRMSE : ℚ → String) (r2 rmse : ℚ) :
    ((promotionCheck fmtR2 fmtRMSE r2 rmse).promoted_to_production = true ↔
      R2_THRESHOLD ≤ r2 ∧ rmse ≤ RMSE_THRESHOLD) ∧
    (R2_THRESHOLD ≤ r2 ∧ rmse ≤ RMSE_THRESHOLD →
      (promotionCheck fmtR2 fmtRMSE r2 rmse).promotion_reason = "Metrics met thresholds") ∧
    (¬(R2_THRESHOLD ≤ r2 ∧ rmse ≤ RMSE_THRESHOLD) →
      (promotionCheck fmtR2 fmtRMSE r2 rmse).promoted_to_production = false ∧
      (promotionCheck fmtR2 fmtRMSE r2 rmse).promotion_reason =
        "R2=" ++ fmtR2 r2 ++ ", RMSE=$" ++ fmtRMSE rmse) := by
  by_cases h : R2_THRESHOLD ≤ r2 ∧ rmse ≤ RMSE_THRESHOLD
  · unfold promotionCheck
    rw [if_pos h]
    exact ⟨by simp [h], fun _ => rfl, fun hc => absurd h hc⟩
  · unfold promotionCheck
    rw [if_neg h]
    exact ⟨by simp [h], fun hc => absurd hc h, fun _ => ⟨rfl, rfl⟩⟩

/-- Witness for C6: the spec's test vectors, evaluated through the
theorem: R²=0.5 with RMSE=800000 is not promoted, R²=0.2 with RMSE=600000
is not promoted, R²=0.5 with RMSE=600000 is promoted. -/
theorem promotion_policy_witness :
    (promotionCheck (fun _ => "0.5") (fun _ => "800000") (1 / 2) 800000).promoted_to_production
        = false ∧
    (promotionCheck (fun _ => "0.2") (fun _ => "600000") (1 / 5) 600000).promoted_to_production
        = false ∧
    ((promotionCheck (fun _ => "0.5") (fun _ => "600000") (1 / 2) 600000).promoted_to_production
        = true ↔ R2_THRESHOLD ≤ 1 / 2 ∧ (600000 : ℚ) ≤ RMSE_THRESHOLD) :=
  ⟨((promotion_policy (fun _ => "0.5") (fun _ => "800000") (1 / 2) 800000).2.2
      (by norm_num [R2_THRESHOLD, RMSE_THRESHOLD])).1,
   ((promotion_policy (fun _ => "0.2") (fun _ => "600000") (1 / 5) 600000).2.2
      (by norm_num [R2_THRESHOLD, RMSE_THRESHOLD])).1,
   (promotion_policy (fun _ => "0.5") (fun _ => "600000") (1 / 2) 600000).1⟩

/-!  ## Retraining-gate theorems  -/

/-- Claim C1: if the body of `check_drift`'s `try` block raises, the gate
branches to `train_model` (the error-fallback retrain), never to
`skip_training`. -/
theorem check_drift_fail_open (env : GateEnv) (e : String)
    (h : check_drift_body env = Except.error e) :
    (check_drift env).1 = "train_model" ∧ (check_drift env).1 ≠ "skip_training" := by
  unfold check_drift
  rw [h]
  refine ⟨rfl, ?_⟩
  intro hc
  simp at hc

/-- Witness for C1: a cycle whose current-batch load raises. -/
theorem check_drift_fail_open_witness :
    check_drift_body env0 = Except.error "db down" ∧
    (check_drift env0).1 = "train_model" :=
  ⟨rfl, (check_drift_fail_open env0 "db down" rfl).1⟩

theorem except_bind_ok {ε α β : Type} (a : α) (f : α → Except ε β) :
    (Except.ok a : Except ε α) >>= f = f a := rfl

theorem except_bind_error {ε α β : Type} (e : ε) (f : α → Except ε β) :
    (Except.error e : Except ε α) >>= f = Except.error e := rfl

theorem except_pure {ε α : Type} (a : α) :
    (pure a : Except ε α) = Except.ok a := rfl

theorem gateEval_ok_entries (env : GateEnv) (current_df : DataFrame)
    (r : String × List DriftLogEntry) (h : gateEval env current_df = Except.ok r) :
    r.2.length = 1 ∧
      (env.reference = none → r.2 = [firstRunEntry env.current_batch_id]) := by
  unfold gateEval at h
  cases hr : env.reference with
  | none =>
    rw [hr] at h
    dsimp only at h
    cases h
    exact ⟨rfl, fun _ => rfl⟩
  | some reference_df =>
    rw [hr] at h
    dsimp only at h
    refine ⟨?_, fun hc => Option.noConfusion hc⟩
    by_cases he : reference_df.rows.isEmpty
    · rw [if_pos he] at h
      cases h
      rfl
    · rw [if_neg he] at h
      cases hc1 : env.clean current_df with
      | error e =>
        rw [hc1, except_bind_error] at h
        cases h
      | ok current_clean =>
        rw [hc1, except_bind_ok] at h
        cases hc2 : env.clean reference_df with
        | error e =>
          rw [hc2, except_bind_error] at h
          cases h
        | ok reference_clean =>
          rw [hc2, except_bind_ok] at h
          cases hd : env.detect reference_clean current_clean with
          | error e =>
            rw [hd, except_bind_error] at h
            cases h
          | ok details =>
            rw [hd, except_bind_ok] at h
            by_cases hdd : details.drift_detected = true
            · rw [if_pos hdd, except_pure] at h
              cases h
              rfl
            · rw [if_neg hdd, except_pure] at h
              cases h
              rfl

/-- Amended claim C2: every cycle whose `try` body completes records
exactly one drift-verdict audit entry (on a first run the degenerate
zero-drift entry with action `train_first_run`), but a cycle that ends in
the error-fallback RETRAIN records no verdict: every `log_drift_result`
call is followed immediately by `return`, so an exception always precedes
verdict emission. -/
theorem check_drift_verdict_accounting (env : GateEnv) :
    (∀ r, check_drift_body env = Except.ok r → r.2.length = 1) ∧
    (∀ e, check_drift_body env = Except.error e → (check_drift env).2 = []) ∧
    (env.reference = none → ∀ r, check_drift_body env = Except.ok r →
      r.2 = [firstRunEntry env.current_batch_id]) := by
  refine ⟨?_, ?_, ?_⟩
  · intro r h
    unfold check_drift_body at h
    cases hL : loadCurrentStep env with
    | error e =>
      rw [hL] at h
      cases h
    | ok df =>
      rw [hL] at h
      exact (gateEval_ok_entries env df r h).1
  · intro e h
    unfold check_drift
    rw [h]
  · intro hr r h
    unfold check_drift_body at h
    cases hL : loadCurrentStep env with
    | error e =>
      rw [hL] at h
      cases h
    | ok df =>
      rw [hL] at h
      exact (gateEval_ok_entries env df r h).2 hr

/-- Counterexample for C2 as stated: the cycle `env0` ends in the
error-fallback RETRAIN (its `try` body raises) yet records zero
drift-verdict audit entries, not exactly one. -/
theorem check_drift_error_cycle_cex :
    check_drift_body env0 = Except.error "db down" ∧
    check_drift env0 = ("train_model", []) ∧
    ((check_drift env0).2).length = 0 :=
  ⟨rfl, rfl, rfl⟩

/-- Witness for the amended C2: a successful first-run cycle (empty store,
loadable current batch) records exactly the degenerate verdict. -/
theorem check_drift_verdict_accounting_witness :
    check_drift_body envFirstRun =
      Except.ok ("train_model", [firstRunEntry (some "batch1")]) ∧
    ∀ r, check_drift_body envFirstRun = Except.ok r → r.2.length = 1 :=
  ⟨rfl, (check_drift_verdict_accounting envFirstRun).1⟩

/-!  ## Reference-selector theorems  -/

theorem dedup_go_mem {α : Type} [DecidableEq α] :
    ∀ (l acc : List α) (x : α),
      x ∈ l.foldl (fun a y => if y ∈ a then a else a ++ [y]) acc ↔ x ∈ acc ∨ x ∈ l := by
  intro l
  induction l with
  | nil => intro acc x; simp
  | cons y ys ih =>
    intro acc x
    rw [List.foldl_cons, ih]
    by_cases hy : y ∈ acc
    · rw [if_pos hy]
      constructor
      · rintro (h | h)
        · exact Or.inl h
        · exact Or.inr (List.mem_cons_of_mem _ h)
      · rintro (h | h)
        · exact Or.inl h
        · rcases List.mem_cons.mp h with rfl | h
          · exact Or.inl hy
          · exact Or.inr h
    · rw [if_neg hy]
      simp only [List.mem_append, List.mem_singleton, List.mem_cons]
      tauto

theorem dedup_go_nodup {α : Type} [DecidableEq α] :
    ∀ (l acc : List α), acc.Nodup →
      (l.foldl (fun a y => if y ∈ a then a else a ++ [y]) acc).Nodup := by
  intro l
  induction l with
  | nil => intro acc h; exact h
  | cons y ys ih =>
    intro acc h
    rw [List.foldl_cons]
    by_cases hy : y ∈ acc
    · rw [if_pos hy]
      exact ih acc h
    · rw [if_neg hy]
      refine ih _ ?_
      rw [← List.concat_eq_append]
      exact List.Nodup.concat hy h

theorem mem_dedupKeepFirst {α : Type} [DecidableEq α] (l : List α) (x : α) :
    x ∈ dedupKeepFirst l ↔ x ∈ l := by
  unfold dedupKeepFirst
  rw [dedup_go_mem]
  simp

theorem nodup_dedupKeepFirst {α : Type} [DecidableEq α] (l : List α) :
    (dedupKeepFirst l).Nodup :=
  dedup_go_nodup l [] List.nodup_nil

theorem mem_batchIds {store : List StoredRow} {b : String} :
    b ∈ batchIds store ↔ ∃ r ∈ store, r.batch_id = b := by
  unfold batchIds
  rw [mem_dedupKeepFirst]
  simp [List.mem_map, eq_comm]

theorem nodup_batchIds (store : List StoredRow) : (batchIds store).Nodup :=
  nodup_dedupKeepFirst _

/-- Claim C4: with zero stored batches the selector returns `None`; with
exactly one stored batch it returns that batch; with two or more batches
(of pairwise-distinct first ingestion timestamps) it returns the
second-most-recent batch by ingestion time — a batch `b` with exactly one
strictly more recent batch `m` — never the most recent `m`. -/
theorem get_reference_data_policy :
    get_reference_data [] = none ∧
    (∀ (store : List StoredRow) (b : String), batchIds store = [b] →
      get_reference_data store = some store) ∧
    (∀ store : List StoredRow, 2 ≤ (batchIds store).length →
      (∀ b ∈ batchIds store, ∀ c ∈ batchIds store, b ≠ c →
        firstTimestamp store b ≠ firstTimestamp store c) →
      ∃ b m, b ∈ batchIds store ∧ m ∈ batchIds store ∧ b ≠ m ∧
        get_reference_data store = some (loadBatch store b) ∧
        firstTimestamp store b < firstTimestamp store m ∧
        (∀ c ∈ batchIds store, firstTimestamp store c ≤ firstTimestamp store m) ∧
        (∀ c ∈ batchIds store, c ≠ m → firstTimestamp store c ≤ firstTimestamp store b)) := by
  refine ⟨rfl, ?_, ?_⟩
  · intro store b hb
    have hload : loadBatch store b = store := by
      unfold loadBatch
      rw [List.filter_eq_self]
      intro r hr
      have : r.batch_id ∈ batchIds store := mem_batchIds.mpr ⟨r, hr, rfl⟩
      rw [hb] at this
      simpa using this
    unfold get_reference_data batchesQuery
    rw [hb]
    simp only [List.map_cons, List.map_nil, List.insertionSort, List.orderedInsert]
    show some (loadBatch store b) = some store
    rw [hload]
  · intro store h2 hinj
    have hGnd : ((batchIds store).map
        (fun b => (b, firstTimestamp store b))).Nodup := by
      refine List.Nodup.map ?_ (nodup_batchIds store)
      intro a b hab
      exact (Prod.mk.injEq _ _ _ _ ▸ hab).1
    have hperm : List.Perm
        (List.insertionSort tsGE
          ((batchIds store).map (fun b => (b, firstTimestamp store b))))
        ((batchIds store).map (fun b => (b, firstTimestamp store b))) :=
      List.perm_insertionSort _ _
    have hsort : List.Sorted tsGE (List.insertionSort tsGE
        ((batchIds store).map (fun b => (b, firstTimestamp store b)))) :=
      List.sorted_insertionSort _ _
    have hlen : 2 ≤ (List.insertionSort tsGE
        ((batchIds store).map (fun b => (b, firstTimestamp store b)))).length := by
      rw [List.length_insertionSort, List.length_map]
      exact h2
    cases hS : (List.insertionSort tsGE
        ((batchIds store).map (fun b => (b, firstTimestamp store b)))) with
    | nil =>
      rw [hS] at hlen
      simp at hlen
    | cons p0 S1 =>
    cases hS1 : S1 with
    | nil =>
      rw [hS, hS1] at hlen
      simp at hlen
    | cons p1 rest =>
    rw [hS1] at hS
    have hmemG : ∀ p, p ∈ (p0 :: p1 :: rest) →
        p.1 ∈ batchIds store ∧ p = (p.1, firstTimestamp store p.1) := by
      intro p hp
      have : p ∈ (batchIds store).map (fun b => (b, firstTimestamp store b)) := by
        rw [← hS] at hp
        exact hperm.subset hp
      obtain ⟨c, hc, hce⟩ := List.mem_map.mp this
      rw [← hce]
      exact ⟨hc, rfl⟩
    obtain ⟨hm1, hm2⟩ := hmemG p0 (List.mem_cons_self _ _)
    obtain ⟨hb1, hb2⟩ := hmemG p1 (List.mem_cons_of_mem _ (List.mem_cons_self _ _))
    have hSnd : (p0 :: p1 :: rest).Nodup := by
      rw [← hS]
      exact (hperm.nodup_iff).mpr hGnd
    have hne : p1.1 ≠ p0.1 := by
      intro hcontra
      have : p0 = p1 := by
        rw [hm2, hb2, hcontra]
      rw [List.nodup_cons] at hSnd
      exact hSnd.1 (this ▸ List.mem_cons_self _ _)
    have hresult : get_reference_data store = some (loadBatch store p1.1) := by
      unfold get_reference_data batchesQuery
      rw [hS]
      rfl
    rw [hS] at hsort
    have h0 : ∀ y ∈ p1 :: rest, tsGE p0 y := (List.sorted_cons.mp hsort).1
    have h1 : ∀ y ∈ rest, tsGE p1 y :=
      (List.sorted_cons.mp (List.sorted_cons.mp hsort).2).1
    have hm2snd : p0.2 = firstTimestamp store p0.1 := by
      rw [hm2]
    have hb2snd : p1.2 = firstTimestamp store p1.1 := by
      rw [hb2]
    have hle : firstTimestamp store p1.1 ≤ firstTimestamp store p0.1 := by
      rw [← hm2snd, ← hb2snd]
      exact h0 p1 (List.mem_cons_self _ _)
    have hlt : firstTimestamp store p1.1 < firstTimestamp store p0.1 :=
      lt_of_le_of_ne hle (hinj p1.1 hb1 p0.1 hm1 hne)
    have hmemS : ∀ c ∈ batchIds store,
        (c, firstTimestamp store c) ∈ (p0 :: p1 :: rest) := by
      intro c hc
      rw [← hS]
      exact (hperm.symm).subset (List.mem_map.mpr ⟨c, hc, rfl⟩)
    have hmax : ∀ c ∈ batchIds store,
        firstTimestamp store c ≤ firstTimestamp store p0.1 := by
      intro c hc
      rcases List.mem_cons.mp (hmemS c hc) with he | he
      · rw [← hm2snd, ← he]
      · have := h0 _ he
        unfold tsGE at this
        rw [← hm2snd]
        exact this
    have hsecond : ∀ c ∈ batchIds store, c ≠ p0.1 →
        firstTimestamp store c ≤ firstTimestamp store p1.1 := by
      intro c hc hcne
      rcases List.mem_cons.mp (hmemS c hc) with he | he
      · exact absurd (congrArg Prod.fst he) hcne
      · rcases List.mem_cons.mp he with he2 | he2
        · rw [← hb2snd, ← he2]
        · have := h1 _ he2
          unfold tsGE at this
          rw [← hb2snd]
          exact this
    exact ⟨p1.1, p0.1, hb1, hm1, hne, hresult, hlt, hmax, hsecond⟩

/-!  ## Feature-cleaner lemmas  -/

theorem map_eq_self {α : Type} {f : α → α} :
    ∀ {l : List α}, (∀ a ∈ l, f a = a) → l.map f = l := by
  intro l
  induction l with
  | nil => intro _; rfl
  | cons x xs ih =>
    intro h
    rw [List.map_cons, h x (List.mem_cons_self _ _),
      ih (fun a ha => h a (List.mem_cons_of_mem _ ha))]

theorem mem_guarded_pos {b : Bool} {f : Feature} {l : List Row} {r : Row} :
    r ∈ guarded b (filterPos f) l ↔ r ∈ l ∧ (b = true → posP f r = true) := by
  unfold guarded filterPos
  cases b <;> simp [List.mem_filter]

theorem mem_guarded_range {b : Bool} {f : Feature} {lo hi : ℚ} {l : List Row} {r : Row} :
    r ∈ guarded b (filterRange f lo hi) l ↔ r ∈ l ∧ (b = true → rangeP f lo hi r = true) := by
  unfold guarded filterRange
  cases b <;> simp [List.mem_filter]

theorem mem_guarded_dropna {b : Bool} {f : Feature} {l : List Row} {r : Row} :
    r ∈ guarded b (dropnaCol f) l ↔ r ∈ l ∧ (b = true → (r.getF f).isSome = true) := by
  unfold guarded dropnaCol
  cases b <;> simp [List.mem_filter]

theorem guarded_eq_self {b : Bool} {g : List Row → List Row} {l : List Row}
    (h : b = true → g l = l) : guarded b g l = l := by
  unfold guarded
  cases b
  · rfl
  · simpa using h rfl

theorem mem_of_guarded {b : Bool} {g : List Row → List Row} {l : List Row} {r : Row}
    (hg : ∀ r', r' ∈ g l → r' ∈ l) (h : r ∈ guarded b g l) : r ∈ l := by
  unfold guarded at h
  cases b
  · exact h
  · exact hg r h

theorem outlierStep_subset {f : Feature} {l : List Row} {r : Row}
    (h : r ∈ outlierStep f l) : r ∈ l := by
  unfold outlierStep at h
  split at h
  · exact (List.mem_filter.mp h).1
  · exact h

theorem step4_subset {df : DataFrame} {l : List Row} {r : Row}
    (h : r ∈ step4 df l) : r ∈ l := by
  unfold step4 at h
  exact mem_of_guarded (fun _ h' => outlierStep_subset h')
    (mem_of_guarded (fun _ h' => outlierStep_subset h') h)

theorem outlierStep_eq_self {f : Feature} {l : List Row} (h : ¬ 100 < l.length) :
    outlierStep f l = l := by
  unfold outlierStep
  rw [if_neg h]

theorem step4_eq_self (df : DataFrame) {l : List Row} (h : l.length ≤ 100) :
    step4 df l = l := by
  unfold step4
  have e1 : guarded df.hasPrice (outlierStep Feature.price) l = l :=
    guarded_eq_self (fun _ => outlierStep_eq_self (by omega))
  rw [e1]
  exact guarded_eq_self (fun _ => outlierStep_eq_self (by omega))

theorem posP_isSome {f : Feature} {r : Row} (h : posP f r = true) :
    (r.getF f).isSome = true := by
  unfold posP cellTest at h
  cases hc : r.getF f
  · rw [hc] at h
    cases h
  · rfl

theorem filterPos_eq_self {f : Feature} {l : List Row}
    (h : ∀ r ∈ l, posP f r = true) : filterPos f l = l := by
  unfold filterPos
  rw [List.filter_eq_self]
  simpa using h

theorem filterRange_eq_self {f : Feature} {lo hi : ℚ} {l : List Row}
    (h : ∀ r ∈ l, rangeP f lo hi r = true) : filterRange f lo hi l = l := by
  unfold filterRange
  rw [List.filter_eq_self]
  simpa using h

theorem dropnaCol_eq_self {f : Feature} {l : List Row}
    (h : ∀ r ∈ l, (r.getF f).isSome = true) : dropnaCol f l = l := by
  unfold dropnaCol
  rw [List.filter_eq_self]
  simpa using h

theorem mem_step5 (df : DataFrame) (l : List Row) (r : Row) :
    r ∈ step5 df l ↔ r ∈ l ∧ Step5Ok df r := by
  unfold step5 Step5Ok
  rw [mem_guarded_range, mem_guarded_range, mem_guarded_range, mem_guarded_range,
    mem_guarded_pos, mem_guarded_pos, mem_guarded_pos, mem_guarded_pos, mem_guarded_pos]
  constructor
  · rintro ⟨⟨⟨⟨⟨⟨⟨⟨⟨hm, h1⟩, h2⟩, h3⟩, h4⟩, h5⟩, h6⟩, h7⟩, h8⟩, h9⟩
    exact ⟨hm, h1, fun hb => ⟨h2 hb, h6 hb⟩, fun hb => ⟨h3 hb, h7 hb⟩,
      fun hb => ⟨h4 hb, h8 hb⟩, fun hb => ⟨h5 hb, h9 hb⟩⟩
  · rintro ⟨hm, h1, h2, h3, h4, h5⟩
    exact ⟨⟨⟨⟨⟨⟨⟨⟨⟨hm, h1⟩, fun hb => (h2 hb).1⟩, fun hb => (h3 hb).1⟩,
      fun hb => (h4 hb).1⟩, fun hb => (h5 hb).1⟩, fun hb => (h2 hb).2⟩,
      fun hb => (h3 hb).2⟩, fun hb => (h4 hb).2⟩, fun hb => (h5 hb).2⟩

theorem step5_eq_self (df : DataFrame) {l : List Row}
    (h : ∀ r ∈ l, Step5Ok df r) : step5 df l = l := by
  unfold step5
  have e1 : guarded df.hasPrice (filterPos Feature.price) l = l :=
    guarded_eq_self (fun hb => filterPos_eq_self (fun r hr => (h r hr).1 hb))
  rw [e1]
  have e2 : guarded df.hasBed (filterPos Feature.bed) l = l :=
    guarded_eq_self (fun hb => filterPos_eq_self (fun r hr => ((h r hr).2.1 hb).1))
  rw [e2]
  have e3 : guarded df.hasBath (filterPos Feature.bath) l = l :=
    guarded_eq_self (fun hb => filterPos_eq_self (fun r hr => ((h r hr).2.2.1 hb).1))
  rw [e3]
  have e4 : guarded df.hasAcreLot (filterPos Feature.acre_lot) l = l :=
    guarded_eq_self (fun hb => filterPos_eq_self (fun r hr => ((h r hr).2.2.2.1 hb).1))
  rw [e4]
  have e5 : guarded df.hasHouseSize (filterPos Feature.house_size) l = l :=
    guarded_eq_self (fun hb => filterPos_eq_self (fun r hr => ((h r hr).2.2.2.2 hb).1))
  rw [e5]
  have e6 : guarded df.hasBed (filterRange Feature.bed 1 20) l = l :=
    guarded_eq_self (fun hb => filterRange_eq_self (fun r hr => ((h r hr).2.1 hb).2))
  rw [e6]
  have e7 : guarded df.hasBath (filterRange Feature.bath (1 / 2) 15) l = l :=
    guarded_eq_self (fun hb => filterRange_eq_self (fun r hr => ((h r hr).2.2.1 hb).2))
  rw [e7]
  have e8 : guarded df.hasAcreLot (filterRange Feature.acre_lot (1 / 1000) 1000) l = l :=
    guarded_eq_self (fun hb => filterRange_eq_self (fun r hr => ((h r hr).2.2.2.1 hb).2))
  rw [e8]
  exact guarded_eq_self (fun hb => filterRange_eq_self (fun r hr => ((h r hr).2.2.2.2 hb).2))

theorem dedup_go_eq_self {α : Type} [DecidableEq α] :
    ∀ (l acc : List α), (acc ++ l).Nodup →
      l.foldl (fun a y => if y ∈ a then a else a ++ [y]) acc = acc ++ l := by
  intro l
  induction l with
  | nil => intro acc _; simp
  | cons y ys ih =>
    intro acc h
    have hy : y ∉ acc := by
      rw [List.nodup_append] at h
      intro hc
      exact h.2.2 hc (List.mem_cons_self _ _)
    rw [List.foldl_cons, if_neg hy, ih (acc ++ [y]) (by simpa using h)]
    simp

theorem dropDupes_eq_self {l : List Row} (h : l.Nodup) : dropDupes l = l := by
  unfold dropDupes dedupKeepFirst
  simpa using dedup_go_eq_self l [] (by simpa using h)

theorem toStrCell_cellStr (c : Option String) : cellStr (toStrCell c) := by
  unfold toStrCell cellStr
  cases c with
  | none => exact ⟨"", rfl, by decide⟩
  | some s =>
    dsimp only
    by_cases hs : s = "nan"
    · rw [if_pos hs]
      exact ⟨"", rfl, by decide⟩
    · rw [if_neg hs]
      exact ⟨s, rfl, hs⟩

theorem toStrCell_eq_self {c : Option String} (h : cellStr c) : toStrCell c = c := by
  obtain ⟨s, rfl, hns⟩ := h
  unfold toStrCell
  dsimp only
  rw [if_neg hns]

theorem fixState_sentinel {c : Option String} (h : cellStr c) :
    cellSentinel (fixState c) := by
  obtain ⟨s, rfl, hns⟩ := h
  unfold fixState cellSentinel
  dsimp only
  by_cases he : s = ""
  · rw [if_pos he]
    exact ⟨"Unknown", rfl, by decide, by decide⟩
  · rw [if_neg he, if_neg hns]
    exact ⟨s, rfl, hns, he⟩

theorem fixState_eq_self {c : Option String} (h : cellSentinel c) : fixState c = c := by
  obtain ⟨s, rfl, hns, hne⟩ := h
  unfold fixState
  dsimp only
  rw [if_neg hne, if_neg hns]

theorem fixStatus_sentinel {c : Option String} (h : cellStr c) :
    cellSentinel (fixStatus c) := by
  obtain ⟨s, rfl, hns⟩ := h
  unfold fixStatus cellSentinel
  dsimp only
  by_cases he : s = ""
  · rw [if_pos he]
    exact ⟨"for_sale", rfl, by decide, by decide⟩
  · rw [if_neg he, if_neg hns]
    exact ⟨s, rfl, hns, he⟩

theorem fixStatus_eq_self {c : Option String} (h : cellSentinel c) : fixStatus c = c := by
  obtain ⟨s, rfl, hns, hne⟩ := h
  unfold fixStatus
  dsimp only
  rw [if_neg hne, if_neg hns]

theorem cellSentinel_cellStr {c : Option String} (h : cellSentinel c) : cellStr c := by
  obtain ⟨s, hs, hns, _⟩ := h
  exact ⟨s, hs, hns⟩

theorem convRow_establishes (df : DataFrame) (r : Row) : ConvOk df (convRow df r) := by
  unfold ConvOk convRow
  refine ⟨fun hb => ?_, fun hb => ?_, fun hb => ?_, fun hb => ?_, fun hb => ?_, fun hb => ?_⟩ <;>
    simp only [hb, if_true] <;>
    exact toStrCell_cellStr _

theorem convRow_eq_self {df : DataFrame} {r : Row} (h : StrOkRow df r) :
    convRow df r = r := by
  obtain ⟨h1, h2, h3, h4, h5, h6⟩ := h
  unfold convRow
  have e1 : (if df.hasZipCode then toStrCell r.zip_code else r.zip_code) = r.zip_code := by
    by_cases hb : df.hasZipCode = true
    · rw [if_pos hb]
      exact toStrCell_eq_self (h1 hb)
    · rw [if_neg hb]
  have e2 : (if df.hasCity then toStrCell r.city else r.city) = r.city := by
    by_cases hb : df.hasCity = true
    · rw [if_pos hb]
      exact toStrCell_eq_self (h2 hb)
    · rw [if_neg hb]
  have e3 : (if df.hasState then toStrCell r.state else r.state) = r.state := by
    by_cases hb : df.hasState = true
    · rw [if_pos hb]
      exact toStrCell_eq_self (cellSentinel_cellStr (h5 hb))
    · rw [if_neg hb]
  have e4 : (if df.hasStatus then toStrCell r.status else r.status) = r.status := by
    by_cases hb : df.hasStatus = true
    · rw [if_pos hb]
      exact toStrCell_eq_self (cellSentinel_cellStr (h6 hb))
    · rw [if_neg hb]
  have e5 : (if df.hasStreet then toStrCell r.street else r.street) = r.street := by
    by_cases hb : df.hasStreet = true
    · rw [if_pos hb]
      exact toStrCell_eq_self (h3 hb)
    · rw [if_neg hb]
  have e6 : (if df.hasBrokeredBy then toStrCell r.brokered_by else r.brokered_by) =
      r.brokered_by := by
    by_cases hb : df.hasBrokeredBy = true
    · rw [if_pos hb]
      exact toStrCell_eq_self (h4 hb)
    · rw [if_neg hb]
  rw [e1, e2, e3, e4, e5, e6]

theorem fillAcre_convok {df : DataFrame} {l : List Row} (h : ∀ r ∈ l, ConvOk df r) :
    ∀ r' ∈ fillAcre l, ConvOk df r' := by
  intro r' hr'
  unfold fillAcre at hr'
  split at hr'
  · exact h r' hr'
  · obtain ⟨r, hrl, he⟩ := List.mem_map.mp hr'
    rw [← he]
    exact h r hrl

theorem fillAcre_eq_self {l : List Row} (h : ∀ r ∈ l, (r.acre_lot).isSome = true) :
    fillAcre l = l := by
  unfold fillAcre
  split
  · rfl
  · apply map_eq_self
    intro r hr
    obtain ⟨w, hw⟩ := Option.isSome_iff_exists.mp (h r hr)
    rw [hw, Option.getD_some, ← hw]

theorem mem_guarded_map {b : Bool} {g : Row → Row} {l : List Row} {r' : Row}
    (h : r' ∈ guarded b (List.map g) l) :
    (b = false ∧ r' ∈ l) ∨ (b = true ∧ ∃ r ∈ l, r' = g r) := by
  unfold guarded at h
  cases b
  · exact Or.inl ⟨rfl, h⟩
  · right
    obtain ⟨r, hr, he⟩ := List.mem_map.mp h
    exact ⟨rfl, r, hr, he.symm⟩

theorem dropnaCol_subset {f : Feature} {l : List Row} {r : Row}
    (h : r ∈ dropnaCol f l) : r ∈ l := by
  unfold dropnaCol at h
  exact (List.mem_filter.mp h).1

theorem step3_strok (df : DataFrame) (l : List Row) (h : ∀ r ∈ l, ConvOk df r) :
    ∀ r ∈ step3 df l, StrOkRow df r := by
  have hD : ∀ r ∈ (guarded df.hasHouseSize (dropnaCol .house_size)
      (guarded df.hasBath (dropnaCol .bath)
        (guarded df.hasBed (dropnaCol .bed)
          (guarded df.hasPrice (dropnaCol .price) l)))), ConvOk df r := by
    intro r hr
    exact h r (mem_of_guarded (fun _ h' => dropnaCol_subset h')
      (mem_of_guarded (fun _ h' => dropnaCol_subset h')
        (mem_of_guarded (fun _ h' => dropnaCol_subset h')
          (mem_of_guarded (fun _ h' => dropnaCol_subset h') hr))))
  have hF : ∀ r ∈ (guarded df.hasAcreLot fillAcre
      (guarded df.hasHouseSize (dropnaCol .house_size)
        (guarded df.hasBath (dropnaCol .bath)
          (guarded df.hasBed (dropnaCol .bed)
            (guarded df.hasPrice (dropnaCol .price) l))))), ConvOk df r := by
    intro r hr
    unfold guarded at hr
    revert hr
    cases df.hasAcreLot
    · intro hr
      exact hD r hr
    · intro hr
      exact fillAcre_convok hD r hr
  intro r hr
  unfold step3 at hr
  rcases mem_guarded_map hr with ⟨hb, hr2⟩ | ⟨hb, r2, hr2, he2⟩
  · rcases mem_guarded_map hr2 with ⟨hb', hr3⟩ | ⟨hb', r3, hr3, he3⟩
    · obtain ⟨c1, c2, c3, c4, c5, c6⟩ := hF r hr3
      exact ⟨c1, c2, c3, c4,
        fun hs => absurd hs (by rw [hb']; exact Bool.false_ne_true),
        fun hs => absurd hs (by rw [hb]; exact Bool.false_ne_true)⟩
    · obtain ⟨c1, c2, c3, c4, c5, c6⟩ := hF r3 hr3
      rw [he3]
      exact ⟨c1, c2, c3, c4,
        fun hs => fixState_sentinel (c5 hs),
        fun hs => absurd hs (by rw [hb]; exact Bool.false_ne_true)⟩
  · rcases mem_guarded_map hr2 with ⟨hb', hr3⟩ | ⟨hb', r3, hr3, he3⟩
    · obtain ⟨c1, c2, c3, c4, c5, c6⟩ := hF r2 hr3
      rw [he2]
      exact ⟨c1, c2, c3, c4,
        fun hs => absurd hs (by rw [hb']; exact Bool.false_ne_true),
        fun hs => fixStatus_sentinel (c6 hs)⟩
    · obtain ⟨c1, c2, c3, c4, c5, c6⟩ := hF r3 hr3
      rw [he2, he3]
      exact ⟨c1, c2, c3, c4,
        fun hs => fixState_sentinel (c5 hs),
        fun hs => fixStatus_sentinel (c6 hs)⟩

theorem step3_eq_self (df : DataFrame) {l : List Row}
    (hok : ∀ r ∈ l, Step5Ok df r) (hstr : ∀ r ∈ l, StrOkRow df r) :
    step3 df l = l := by
  unfold step3
  have e1 : guarded df.hasPrice (dropnaCol Feature.price) l = l :=
    guarded_eq_self (fun hb =>
      dropnaCol_eq_self (fun r hr => posP_isSome ((hok r hr).1 hb)))
  rw [e1]
  have e2 : guarded df.hasBed (dropnaCol Feature.bed) l = l :=
    guarded_eq_self (fun hb =>
      dropnaCol_eq_self (fun r hr => posP_isSome (((hok r hr).2.1 hb).1)))
  rw [e2]
  have e3 : guarded df.hasBath (dropnaCol Feature.bath) l = l :=
    guarded_eq_self (fun hb =>
      dropnaCol_eq_self (fun r hr => posP_isSome (((hok r hr).2.2.1 hb).1)))
  rw [e3]
  have e4 : guarded df.hasHouseSize (dropnaCol Feature.house_size) l = l :=
    guarded_eq_self (fun hb =>
      dropnaCol_eq_self (fun r hr => posP_isSome (((hok r hr).2.2.2.2 hb).1)))
  rw [e4]
  have e5 : guarded df.hasAcreLot fillAcre l = l :=
    guarded_eq_self (fun hb =>
      fillAcre_eq_self (fun r hr => posP_isSome (((hok r hr).2.2.2.1 hb).1)))
  rw [e5]
  have e6 : guarded df.hasState
      (List.map (fun r => { r with state := fixState r.state })) l = l :=
    guarded_eq_self (fun hb => map_eq_self (fun r hr => by
      rw [fixState_eq_self ((hstr r hr).2.2.2.2.1 hb)]))
  rw [e6]
  exact guarded_eq_self (fun hb => map_eq_self (fun r hr => by
    rw [fixStatus_eq_self ((hstr r hr).2.2.2.2.2 hb)]))

theorem clean_rows_spec (df : DataFrame) :
    ∀ r ∈ (clean_data df).rows, Step5Ok df r ∧ StrOkRow df r := by
  intro r hr
  have hrows : (clean_data df).rows =
      step5 df (step4 df (step3 df ((dropDupes df.rows).map (convRow df)))) := rfl
  rw [hrows] at hr
  have h5 := (mem_step5 _ _ _).mp hr
  refine ⟨h5.2, ?_⟩
  have h4 : r ∈ step3 df ((dropDupes df.rows).map (convRow df)) := step4_subset h5.1
  refine step3_strok df _ ?_ r h4
  intro r0 hr0
  obtain ⟨r1, _, he⟩ := List.mem_map.mp hr0
  rw [← he]
  exact convRow_establishes df r1

theorem clean_hasF (df : DataFrame) (f : Feature) :
    (clean_data df).hasF f = df.hasF f := by
  cases f <;> rfl

theorem step5Ok_isSome {df : DataFrame} {r : Row} (h : Step5Ok df r) :
    ∀ f : Feature, df.hasF f = true → (r.getF f).isSome = true := by
  intro f
  cases f with
  | price => intro hb; exact posP_isSome (h.1 hb)
  | bed => intro hb; exact posP_isSome ((h.2.1 hb).1)
  | bath => intro hb; exact posP_isSome ((h.2.2.1 hb).1)
  | acre_lot => intro hb; exact posP_isSome ((h.2.2.2.1 hb).1)
  | house_size => intro hb; exact posP_isSome ((h.2.2.2.2 hb).1)

/-- Cleaning a batch that is already in cleaned form (distinct rows, at
most 100 of them, every row passing the step-5 filters and carrying the
string sentinels) changes nothing. -/
theorem clean_of_cleaned (df2 : DataFrame)
    (hnd : df2.rows.Nodup) (hlen : df2.rows.length ≤ 100)
    (hok : ∀ r ∈ df2.rows, Step5Ok df2 r)
    (hstr : ∀ r ∈ df2.rows, StrOkRow df2 r) :
    clean_data df2 = df2 := by
  unfold clean_data
  rw [dropDupes_eq_self hnd]
  rw [map_eq_self (fun r hr => convRow_eq_self (hstr r hr))]
  rw [step3_eq_self df2 hok hstr]
  rw [step4_eq_self df2 hlen]
  rw [step5_eq_self df2 hok]

/-- Amended claim C8: `clean_data` is idempotent on every batch whose
cleaned form has pairwise-distinct rows and at most 100 of them; in
general it is not idempotent, because the [1st, 99th]-percentile outlier
filter is recomputed on the already-trimmed batch (see the counterexample)
and value collapses (`NaN` vs `'nan'`, median fills) can create duplicates
that a second pass then removes. -/
theorem clean_data_idempotent (df : DataFrame)
    (hnd : (clean_data df).rows.Nodup)
    (hlen : (clean_data df).rows.length ≤ 100) :
    clean_data (clean_data df) = clean_data df := by
  refine clean_of_cleaned (clean_data df) hnd hlen ?_ ?_
  · intro r hr
    exact (clean_rows_spec df r hr).1
  · intro r hr
    exact (clean_rows_spec df r hr).2

set_option maxRecDepth 1000000 in
/-- Counterexample for C8 as stated: on a 110-row batch of distinct
in-range prices `1, …, 110`, the first cleaning keeps the 106 rows inside
the [1st, 99th] price percentile, and re-cleaning removes four more rows,
so `clean_data (clean_data b) ≠ clean_data b`. -/
theorem clean_data_not_idempotent_cex :
    clean_data (clean_data df110) ≠ clean_data df110 := by
  with_unfolding_all decide

/-- Witness for the amended C8: a one-row batch, whose cleaned form is
duplicate-free and small, is cleaned idempotently. -/
theorem clean_data_idempotent_witness :
    ((clean_data dfOneRow).rows.Nodup ∧ (clean_data dfOneRow).rows.length ≤ 100) ∧
    clean_data (clean_data dfOneRow) = clean_data dfOneRow :=
  ⟨⟨by with_unfolding_all decide, by with_unfolding_all decide⟩,
   clean_data_idempotent dfOneRow (by with_unfolding_all decide)
     (by with_unfolding_all decide)⟩

/-- Claim C7: the feature cleaner (cleaning followed by validation, the
spec's `clean(batch) -> CleanedBatch | ValidationError` contract) fails
exactly when a required column is absent from the input schema or zero
rows remain after cleaning; on every other input it succeeds.  (After a
successful clean no required column can be all-null, so the remaining
`validate_data` check never fires.) -/
theorem clean_validate_iff (df : DataFrame) :
    validate_data (clean_data df) = Except.ok () ↔
      ((∀ f ∈ requiredCols, df.hasF f = true) ∧ (clean_data df).rows ≠ []) := by
  unfold validate_data
  by_cases hmiss : (requiredCols.filter (fun f => !(clean_data df).hasF f)) = []
  · rw [if_neg (fun hc => hc hmiss)]
    by_cases hz : (clean_data df).rows.length = 0
    · rw [if_pos hz]
      constructor
      · intro h
        exact Except.noConfusion h
      · rintro ⟨_, hne⟩
        exact absurd (List.length_eq_zero.mp hz) hne
    · rw [if_neg hz]
      have hall : ∀ f ∈ requiredCols, df.hasF f = true := by
        intro f hf
        have h1 := List.filter_eq_nil_iff.mp hmiss f hf
        rw [clean_hasF] at h1
        simpa using h1
      have hfind : requiredCols.find?
          (fun f => (clean_data df).rows.all (fun r => (r.getF f).isNone)) = none := by
        rw [List.find?_eq_none]
        intro f hf hallnull
        obtain ⟨r0, hr0⟩ := List.exists_mem_of_ne_nil (clean_data df).rows
          (fun he => hz (by rw [he]; rfl))
        have hsome : (r0.getF f).isSome = true :=
          step5Ok_isSome (clean_rows_spec df r0 hr0).1 f (hall f hf)
        have hnone := List.all_eq_true.mp hallnull r0 hr0
        rw [Option.isNone_iff_eq_none] at hnone
        rw [hnone] at hsome
        exact Bool.noConfusion hsome
      rw [hfind]
      constructor
      · intro _
        exact ⟨hall, fun he => hz (by rw [he]; rfl)⟩
      · intro _
        rfl
  · rw [if_pos hmiss]
    constructor
    · intro h
      exact Except.noConfusion h
    · rintro ⟨hall, _⟩
      refine absurd (List.filter_eq_nil_iff.mpr ?_) hmiss
      intro f hf
      rw [clean_hasF]
      simp [hall f hf]

/-- Witness for C7: a one-row in-range batch cleans and validates. -/
theorem clean_validate_iff_witness :
    validate_data (clean_data dfOneRow) = Except.ok () :=
  (clean_validate_iff dfOneRow).mpr ⟨by decide, by with_unfolding_all decide⟩

/-- Witness for C4: a store with two batches, `"b"` ingested after `"a"`;
the selector returns batch `"a"`, the second-most-recent. -/
theorem get_reference_data_policy_witness :
    (2 ≤ (batchIds store2).length ∧
      ∀ b ∈ batchIds store2, ∀ c ∈ batchIds store2, b ≠ c →
        firstTimestamp store2 b ≠ firstTimestamp store2 c) ∧
    ∃ b m, b ∈ batchIds store2 ∧ m ∈ batchIds store2 ∧ b ≠ m ∧
      get_reference_data store2 = some (loadBatch store2 b) ∧
      firstTimestamp store2 b < firstTimestamp store2 m ∧
      (∀ c ∈ batchIds store2, firstTimestamp store2 c ≤ firstTimestamp store2 m) ∧
      (∀ c ∈ batchIds store2, c ≠ m →
        firstTimestamp store2 c ≤ firstTimestamp store2 b) :=
  ⟨⟨by decide, by decide⟩,
   get_reference_data_policy.2.2 store2 (by decide) (by decide)⟩

end MLOpsPipeline
